import Mathlib

/-!
Verification of the Context state container and the Regions component of the
omero-iviewer front end.  The JavaScript source is shallowly embedded: JS
values relevant to the dynamic type checks are an inductive `JsVal`, the JS
`Map` is an association list whose `set` replaces the value of an existing
key in place and appends otherwise, and lifecycle side effects (`bind`,
`unbind`, event-bus publications) are recorded in an explicit trace.
-/

namespace Iviewer

/-- A JavaScript value, as far as the dynamic checks of the source need:
`typeof` distinguishes these shapes, strict equality `===` across different
shapes is false, objects compare by reference identity (a numeric tag). -/
inductive JsVal where
  | null
  | num (q : ℚ)
  | str (s : String)
  | fn (f : Nat)
  | obj (o : Nat)
deriving DecidableEq

/-- JS typeof: null and plain objects are "object". -/
def jsTypeof : JsVal → String
  | JsVal.null => "object"
  | JsVal.num _ => "number"
  | JsVal.str _ => "string"
  | JsVal.fn _ => "function"
  | JsVal.obj _ => "object"

/-- JS strict equality on the modelled values: equal shape and payload. -/
def jsStrictEq (a b : JsVal) : Bool := decide (a = b)

/-- JS instanceof: false unless the value is an object that the class
membership oracle recognizes; primitives are never instances. -/
def jsInstanceof (v : JsVal) (isInst : Nat → Bool) : Bool :=
  match v with
  | JsVal.obj o => isInst o
  | _ => false

/-- JS String.prototype.toUpperCase restricted to the alphabets used here. -/
def jsToUpperCase (s : String) : String := String.mk (s.data.map Char.toUpper)

/-- Index of the first position of l at which pat is a prefix, if any. -/
def firstPrefixIdx (pat : List Char) : List Char → Option Nat
  | [] => if List.isPrefixOf pat ([] : List Char) then some 0 else none
  | c :: tl =>
    if List.isPrefixOf pat (c :: tl) then some 0
    else (firstPrefixIdx pat tl).map (fun n => n + 1)

/-- JS String.prototype.indexOf: first occurrence of pat in s, or -1. -/
def jsIndexOf (s pat : String) : Int :=
  match firstPrefixIdx pat.toList s.toList with
  | some n => (n : Int)
  | none => -1

/-- The JS Map get: value of the first (hence only) entry with this key. -/
def mapGet {α β : Type} [DecidableEq α] : List (α × β) → α → Option β
  | [], _ => none
  | (a, b) :: tl, k => if a = k then some b else mapGet tl k

/-- The JS Map set: replace the value of an existing key in place, else
append the new entry at the end. -/
def mapSet {α β : Type} [DecidableEq α] : List (α × β) → α → β → List (α × β)
  | [], k, v => [(k, v)]
  | (a, b) :: tl, k, v =>
    if a = k then (k, v) :: tl else (a, b) :: mapSet tl k v

/-- The JS Map delete: drop the entry with this key, if present. -/
def mapDelete {α β : Type} [DecidableEq α] : List (α × β) → α → List (α × β)
  | [], _ => []
  | (a, b) :: tl, k => if a = k then tl else (a, b) :: mapDelete tl k

/-- Modelled from the spec: ImageConfig (the class in model/image_config is
not part of the repository slice) — represents one open instance of an
image, identified by a unique integer id assigned at creation, and holding
the id of the image it was opened for. -/
structure ImageConfig where
  id : Nat
  image_id : ℚ
deriving DecidableEq

/-- Lifecycle / event-bus effects recorded while Context operations run:
the bind and unbind hooks of an ImageConfig, and the IMAGE_CONFIG_SELECT
publication of selectConfig. -/
inductive LcEvent where
  | bindHook (configId : Nat)
  | unbindHook (configId : Nat)
  | publishSelect (configId : Nat)
deriving DecidableEq

/-- The Context state container (src/karma.conf.js, class Context).  The
next_id counter stands for the unique-id generator of ImageConfig, which is
modelled from the spec (fresh integer id at each creation). -/
structure Context where
  eventbus : JsVal
  server : String
  image_configs : List (Nat × ImageConfig)
  selected_config : Option Nat
  useMDI : Bool
  show_regions : Bool
  show_scalebar : Bool
  key_listeners : List (ℚ × Nat)
  next_id : Nat
deriving DecidableEq

/-- Numeric lookup into image_configs: JS Map keys compare by ===, so a
numeric argument matches the Nat key of equal value. -/
def findConfigByNum : List (Nat × ImageConfig) → ℚ →
    Option (Nat × ImageConfig)
  | [], _ => none
  | (a, b) :: tl, q => if (a : ℚ) = q then some (a, b) else findConfigByNum tl q

/-- Context.getImageConfig: null unless the argument is a number ≥ 0 that is
a key of image_configs (the forceRequest side effect lives on the
ImageConfig and is outside this model). -/
def Context.getImageConfig (ctx : Context) (id : JsVal) : Option ImageConfig :=
  match id with
  | JsVal.num q =>
    if q < 0 then none
    else (findConfigByNum ctx.image_configs q).map Prod.snd
  | _ => none

/-- Context.getSelectedImageConfig: getImageConfig of selected_config when
that is a number, else null. -/
def Context.getSelectedImageConfig (ctx : Context) : Option ImageConfig :=
  match ctx.selected_config with
  | some n => ctx.getImageConfig (JsVal.num (n : ℚ))
  | none => none

/-- Context.selectConfig: no-op unless the argument is a number ≥ 0 whose
entry exists; then sets selected_config and, only in MDI mode, publishes
IMAGE_CONFIG_SELECT. -/
def Context.selectConfig (ctx : Context) (id : JsVal) : Context × List LcEvent :=
  match id with
  | JsVal.num q =>
    if q < 0 then (ctx, [])
    else
      match findConfigByNum ctx.image_configs q with
      | none => (ctx, [])
      | some p =>
        ({ ctx with selected_config := some p.1 },
         if ctx.useMDI then [LcEvent.publishSelect p.1] else [])
  | _ => (ctx, [])

/-- The argument of removeImageConfig: an ImageConfig reference, a number,
or any other value (which resolves to nothing). -/
inductive ConfigOrId where
  | ref (c : ImageConfig)
  | byId (q : ℚ)
  | other
deriving DecidableEq

/-- The body of removeImageConfig once the argument resolved to a config c:
delete c's id from the map; then the source compares the ImageConfig object
returned by getSelectedImageConfig — evaluated after the deletion — with
the numeric id under strict equality (an object and a number), to decide
whether to clear selected_config; finally invoke the unbind hook. -/
def Context.removeResolved (ctx : Context) (c : ImageConfig) :
    Context × List LcEvent :=
  let ctx1 := { ctx with image_configs := mapDelete ctx.image_configs c.id }
  let shouldClear : Bool :=
    match ctx1.getSelectedImageConfig with
    | some sel => jsStrictEq (JsVal.obj sel.id) (JsVal.num (c.id : ℚ))
    | none => false
  (if shouldClear then { ctx1 with selected_config := none } else ctx1,
   [LcEvent.unbindHook c.id])

/-- Context.removeImageConfig: resolve the argument (a reference is taken
as-is, a number is looked up in the map), return early if neither resolves,
else run the removal body. -/
def Context.removeImageConfig (ctx : Context) (arg : ConfigOrId) :
    Context × List LcEvent :=
  let conf : Option ImageConfig :=
    match arg with
    | ConfigOrId.ref c => some c
    | ConfigOrId.byId q => (findConfigByNum ctx.image_configs q).map Prod.snd
    | ConfigOrId.other => none
  match conf with
  | none => (ctx, [])
  | some c => ctx.removeResolved c

/-- The for-of loop of addImageConfig in non-MDI mode: removeImageConfig on
each currently held key, in iteration order. -/
def Context.removeAllLoop : Context → List Nat → Context × List LcEvent
  | ctx, [] => (ctx, [])
  | ctx, k :: ks =>
    let r1 := ctx.removeImageConfig (ConfigOrId.byId (k : ℚ))
    let r2 := Context.removeAllLoop r1.1 ks
    (r2.1, r1.2 ++ r2.2)

/-- Context.addImageConfig: null unless the argument is a number ≥ 0; in
non-MDI mode first removes every held config; then creates an ImageConfig
with a fresh id, stores it, selects it, and invokes its bind hook. -/
def Context.addImageConfig (ctx : Context) (image_id : JsVal) :
    Option ImageConfig × Context × List LcEvent :=
  match image_id with
  | JsVal.num q =>
    if q < 0 then (none, ctx, [])
    else
      let r1 :=
        if ctx.useMDI then (ctx, [])
        else Context.removeAllLoop ctx (ctx.image_configs.map Prod.fst)
      let conf : ImageConfig := { id := r1.1.next_id, image_id := q }
      let ctx2 := { r1.1 with
        image_configs := mapSet r1.1.image_configs conf.id conf,
        next_id := r1.1.next_id + 1 }
      let r2 := ctx2.selectConfig (JsVal.num (conf.id : ℚ))
      (some conf, r2.1, r1.2 ++ r2.2 ++ [LcEvent.bindHook conf.id])
  | _ => (none, ctx, [])

/-- Context.addKeyListener: silently ignored unless key is a number and
action a function; otherwise registers/replaces the handler. -/
def Context.addKeyListener (ctx : Context) (key action : JsVal) : Context :=
  match key, action with
  | JsVal.num q, JsVal.fn f =>
    { ctx with key_listeners := mapSet ctx.key_listeners q f }
  | _, _ => ctx

/-- Context.removeKeyListener: silently ignored unless key is a number;
otherwise deletes the handler of that key code, if any. -/
def Context.removeKeyListener (ctx : Context) (key : JsVal) : Context :=
  match key with
  | JsVal.num q => { ctx with key_listeners := mapDelete ctx.key_listeners q }
  | _ => ctx

/-- A keydown event as the global listener reads it. -/
structure KeyEvent where
  ctrlKey : Bool
  targetTag : String
  keyCode : ℚ
deriving DecidableEq

/-- Outcome of the global keydown listener installed by
establishKeyDownListener: passed through (no ctrl, or an input target),
no registered handler, or exactly one handler invoked. -/
inductive DispatchResult where
  | passThrough
  | noHandler
  | handled (f : Nat)
deriving DecidableEq

/-- The body of the window.onkeydown closure: only CTRL combinations on
non-input targets are processed; the handler registered for the key code,
if any, is invoked (after preventDefault). -/
def Context.keydown (ctx : Context) (e : KeyEvent) : DispatchResult :=
  if e.ctrlKey = false ∨ jsToUpperCase e.targetTag = "INPUT" then
    DispatchResult.passThrough
  else
    match mapGet ctx.key_listeners e.keyCode with
    | some f => DispatchResult.handled f
    | none => DispatchResult.noHandler

/-- Server normalization of the Context constructor: non-strings and the
empty string give ""; a string naming localhost or 127.0.0.1 before
position 7 is prefixed with http://, anything else is kept. -/
def normalizeServer (serverParam : Option String) : String :=
  match serverParam with
  | none => ""
  | some server =>
    if server.length = 0 then ""
    else
      let iLoc := jsIndexOf server "localhost"
      let i127 := jsIndexOf server "127.0.0.1"
      let minLen : Int := ("http://".length : Int)
      let pos : Int := if minLen ≤ iLoc then iLoc else i127
      if (0 ≤ iLoc ∨ 0 ≤ i127) ∧ pos < minLen then "http://" ++ server
      else server

/-- How Context construction can abort: the explicit initialization throw
of the event-bus guard, or the TypeError of reading property id of the
null that addImageConfig returns for an invalid initial image id. -/
inductive CtorError where
  | invalidEventAggregator
  | typeError
deriving DecidableEq

/-- True exactly on the initialization error the event-bus guard throws. -/
def isInitError {α : Type} : Except CtorError α → Bool
  | Except.error CtorError.invalidEventAggregator => true
  | _ => false

/-- True on successful construction. -/
def isOkB {α : Type} : Except CtorError α → Bool
  | Except.ok _ => true
  | Except.error _ => false

/-- The Context constructor.  The guard of the source is
typeof eventbus instanceof EventAggregator: the string produced by typeof
is tested with instanceof, so the isEventAggregator oracle only ever sees a
string.  Then the server parameter is normalized, addImageConfig runs on
the initial image id, and the id of its result is read (a TypeError when
that result is null). -/
def Context.construct (eventbus initial_image_id : JsVal)
    (serverParam : Option String) (isEventAggregator : Nat → Bool) :
    Except CtorError (Context × List LcEvent) :=
  if jsInstanceof (JsVal.str (jsTypeof eventbus)) isEventAggregator then
    Except.error CtorError.invalidEventAggregator
  else
    let ctx0 : Context := {
      eventbus := eventbus,
      server := normalizeServer serverParam,
      image_configs := [],
      selected_config := none,
      useMDI := false,
      show_regions := false,
      show_scalebar := false,
      key_listeners := [],
      next_id := 0 }
    let r := ctx0.addImageConfig initial_image_id
    match r.1 with
    | none => Except.error CtorError.typeError
    | some c => Except.ok ({ r.2.1 with selected_config := some c.id }, r.2.2)

/-- The five key codes of Regions.key_actions: ctrl-d, -u, -s, -y, -z. -/
def Regions.keyCodes : List ℚ := [68, 85, 83, 89, 90]

/-- Regions.attached: registers, through Context.addKeyListener, one fresh
closure per entry of key_actions. -/
def Regions.attached (ctx : Context) (freshHandler : ℚ → Nat) : Context :=
  Regions.keyCodes.foldl
    (fun c k => c.addKeyListener (JsVal.num k) (JsVal.fn (freshHandler k))) ctx

/-- Regions.detached: removes the listener of every key_actions entry. -/
def Regions.detached (ctx : Context) : Context :=
  Regions.keyCodes.foldl (fun c k => c.removeKeyListener (JsVal.num k)) ctx

/-- Well-formedness of the config map as the operations maintain it: every
entry is stored under its config's own id. -/
def Context.wfB (ctx : Context) : Bool :=
  ctx.image_configs.all (fun p => decide (p.2.id = p.1))

/-- The selected_config invariant of the spec, as a decidable check:
selected_config is none or a key of image_configs. -/
def Context.selInvB (ctx : Context) : Bool :=
  match ctx.selected_config with
  | none => true
  | some n => (mapGet ctx.image_configs n).isSome

/-- True exactly when the value is a number. -/
def isNumVal : JsVal → Bool
  | JsVal.num _ => true
  | _ => false

/-- True exactly when the value is a function. -/
def isFnVal : JsVal → Bool
  | JsVal.fn _ => true
  | _ => false

/-- A fresh Context as its field initializers leave it. -/
def emptyCtx : Context := {
  eventbus := JsVal.null,
  server := "",
  image_configs := [],
  selected_config := none,
  useMDI := false,
  show_regions := false,
  show_scalebar := false,
  key_listeners := [],
  next_id := 0 }

/-- The Context obtained by constructing with initial image id 5 (the
constructor succeeds on that input, as the theorems below check). -/
def ctx5 : Context :=
  match Context.construct JsVal.null (JsVal.num 5) none (fun _ => false) with
  | Except.ok p => p.1
  | Except.error _ => emptyCtx

/-- An ImageConfig reference that does not resolve to any entry of ctx5. -/
def foreignConf : ImageConfig := { id := 99, image_id := 3 }

/-- The non-integer JS number 3.5, i.e. 7/2 given in lowest terms. -/
def nonIntCode : ℚ := ⟨7, 2, by decide, by decide⟩

/-! ## Association-list lemmas for the JS Map model -/

theorem mapGet_set_self {α β : Type} [DecidableEq α]
    (l : List (α × β)) (k : α) (v : β) :
    mapGet (mapSet l k v) k = some v := by
  induction l with
  | nil => simp [mapSet, mapGet]
  | cons hd tl ih =>
    obtain ⟨a, b⟩ := hd
    by_cases h : a = k
    · subst h; simp [mapSet, mapGet]
    · simp [mapSet, h, mapGet, ih]

theorem mapGet_set_other {α β : Type} [DecidableEq α]
    (l : List (α × β)) (k : α) (v : β) (j : α) (h : j ≠ k) :
    mapGet (mapSet l k v) j = mapGet l j := by
  induction l with
  | nil => simp [mapSet, mapGet, Ne.symm h]
  | cons hd tl ih =>
    obtain ⟨a, b⟩ := hd
    by_cases ha : a = k
    · subst ha
      simp [mapSet, mapGet, Ne.symm h]
    · simp [mapSet, ha, mapGet, ih]

theorem mapGet_delete_other {α β : Type} [DecidableEq α]
    (l : List (α × β)) (k j : α) (h : j ≠ k) :
    mapGet (mapDelete l k) j = mapGet l j := by
  induction l with
  | nil => simp [mapDelete]
  | cons hd tl ih =>
    obtain ⟨a, b⟩ := hd
    by_cases ha : a = k
    · subst ha
      simp [mapDelete, mapGet, Ne.symm h]
    · simp [mapDelete, ha, mapGet, ih]

theorem mapGet_eq_none_of_not_mem {α β : Type} [DecidableEq α]
    {l : List (α × β)} {k : α} (h : k ∉ l.map Prod.fst) :
    mapGet l k = none := by
  induction l with
  | nil => simp [mapGet]
  | cons hd tl ih =>
    obtain ⟨a, b⟩ := hd
    simp only [List.map_cons, List.mem_cons] at h
    push_neg at h
    simp [mapGet, Ne.symm h.1, ih h.2]

theorem mapGet_delete_self {α β : Type} [DecidableEq α]
    {l : List (α × β)} (k : α) (h : (l.map Prod.fst).Nodup) :
    mapGet (mapDelete l k) k = none := by
  induction l with
  | nil => simp [mapDelete, mapGet]
  | cons hd tl ih =>
    obtain ⟨a, b⟩ := hd
    simp only [List.map_cons, List.nodup_cons] at h
    by_cases ha : a = k
    · subst ha
      simpa [mapDelete] using mapGet_eq_none_of_not_mem h.1
    · simp [mapDelete, ha, mapGet, ih h.2]

theorem mem_keys_mapSet {α β : Type} [DecidableEq α]
    (l : List (α × β)) (k j : α) (v : β)
    (h : j ∈ (mapSet l k v).map Prod.fst) :
    j ∈ l.map Prod.fst ∨ j = k := by
  induction l with
  | nil =>
    simp only [mapSet, List.map_cons, List.map_nil, List.mem_singleton] at h
    exact Or.inr h
  | cons hd tl ih =>
    obtain ⟨a, b⟩ := hd
    by_cases ha : a = k
    · rw [show mapSet ((a, b) :: tl) k v = (k, v) :: tl from by
        simp [mapSet, ha]] at h
      simp only [List.map_cons, List.mem_cons] at h
      rcases h with h1 | h1
      · exact Or.inr h1
      · exact Or.inl (List.mem_cons_of_mem _ h1)
    · rw [show mapSet ((a, b) :: tl) k v = (a, b) :: mapSet tl k v from by
        simp [mapSet, ha]] at h
      simp only [List.map_cons, List.mem_cons] at h
      rcases h with h1 | h1
      · exact Or.inl (by simp [h1])
      · rcases ih h1 with h2 | h2
        · exact Or.inl (List.mem_cons_of_mem _ h2)
        · exact Or.inr h2

theorem nodup_keys_mapSet {α β : Type} [DecidableEq α]
    {l : List (α × β)} (k : α) (v : β) (h : (l.map Prod.fst).Nodup) :
    ((mapSet l k v).map Prod.fst).Nodup := by
  induction l with
  | nil => simp [mapSet]
  | cons hd tl ih =>
    obtain ⟨a, b⟩ := hd
    simp only [List.map_cons, List.nodup_cons] at h
    by_cases ha : a = k
    · subst ha
      simpa [mapSet] using h
    · simp only [mapSet, ha, if_false, List.map_cons, List.nodup_cons]
      refine ⟨fun hmem => ?_, ih h.2⟩
      rcases mem_keys_mapSet tl k a v hmem with h2 | h2
      · exact h.1 h2
      · exact ha h2

theorem mapDelete_sublist {α β : Type} [DecidableEq α]
    (l : List (α × β)) (k : α) : (mapDelete l k).Sublist l := by
  induction l with
  | nil => simp [mapDelete]
  | cons hd tl ih =>
    obtain ⟨a, b⟩ := hd
    by_cases ha : a = k
    · simp [mapDelete, ha]
    · simpa [mapDelete, ha] using List.Sublist.cons₂ (a, b) ih

theorem nodup_keys_mapDelete {α β : Type} [DecidableEq α]
    {l : List (α × β)} (k : α) (h : (l.map Prod.fst).Nodup) :
    ((mapDelete l k).map Prod.fst).Nodup :=
  ((mapDelete_sublist l k).map Prod.fst).nodup h

theorem mapDelete_of_not_mem {α β : Type} [DecidableEq α]
    {l : List (α × β)} {k : α} (h : k ∉ l.map Prod.fst) :
    mapDelete l k = l := by
  induction l with
  | nil => simp [mapDelete]
  | cons hd tl ih =>
    obtain ⟨a, b⟩ := hd
    simp only [List.map_cons, List.mem_cons] at h
    push_neg at h
    simp [mapDelete, Ne.symm h.1, ih h.2]

/-! ## Shape lemmas for the Context operations -/

/-- The deselect guard of removeImageConfig never fires: it strict-compares
an ImageConfig object with a number, which differ in shape. -/
theorem removeResolved_eq (ctx : Context) (c : ImageConfig) :
    ctx.removeResolved c =
      ({ ctx with image_configs := mapDelete ctx.image_configs c.id },
       [LcEvent.unbindHook c.id]) := by
  have hfalse : ∀ o : Option ImageConfig,
      (match o with
       | some sel => jsStrictEq (JsVal.obj sel.id) (JsVal.num (c.id : ℚ))
       | none => false) = false := by
    intro o
    cases o <;> simp [jsStrictEq]
  simp [Context.removeResolved, hfalse]

theorem removeImageConfig_ref (ctx : Context) (c : ImageConfig) :
    ctx.removeImageConfig (ConfigOrId.ref c) = ctx.removeResolved c := by
  simp [Context.removeImageConfig]

theorem removeImageConfig_byId_found (ctx : Context) (q : ℚ) (k : Nat)
    (c : ImageConfig) (h : findConfigByNum ctx.image_configs q = some (k, c)) :
    ctx.removeImageConfig (ConfigOrId.byId q) = ctx.removeResolved c := by
  simp [Context.removeImageConfig, h]

theorem removeImageConfig_byId_missing (ctx : Context) (q : ℚ)
    (h : findConfigByNum ctx.image_configs q = none) :
    ctx.removeImageConfig (ConfigOrId.byId q) = (ctx, []) := by
  simp [Context.removeImageConfig, h]

theorem wf_entries {ctx : Context} (h : ctx.wfB = true) :
    ∀ p ∈ ctx.image_configs, p.2.id = p.1 := by
  intro p hp
  have := List.all_eq_true.mp h p hp
  simpa using this

/-- In non-MDI mode addImageConfig iterates removeImageConfig over all held
keys: on a well-formed map this empties the map, touches nothing else, and
fires the unbind hook of every entry in order. -/
theorem removeAllLoop_self (l : List (Nat × ImageConfig)) :
    ∀ ctx : Context, ctx.image_configs = l → (∀ p ∈ l, p.2.id = p.1) →
      Context.removeAllLoop ctx (l.map Prod.fst) =
        ({ ctx with image_configs := [] },
         l.map (fun p => LcEvent.unbindHook p.1)) := by
  induction l with
  | nil =>
    intro ctx h _
    obtain ⟨eb, sv, ics, sel, mdi, sr, ss, kl, nid⟩ := ctx
    simp only at h
    subst h
    rfl
  | cons hd tl ih =>
    intro ctx h hwf
    obtain ⟨k, c⟩ := hd
    have hck : c.id = k := hwf (k, c) (by simp)
    obtain ⟨eb, sv, ics, sel, mdi, sr, ss, kl, nid⟩ := ctx
    simp only at h
    subst h
    simp only [List.map_cons, Context.removeAllLoop]
    rw [removeImageConfig_byId_found _ _ k c (by simp [findConfigByNum])]
    rw [removeResolved_eq]
    simp only [hck]
    rw [show mapDelete ((k, c) :: tl) k = tl from by simp [mapDelete]]
    rw [ih _ rfl (fun p hp => hwf p (List.mem_cons_of_mem _ hp))]
    rfl

/-- Closed form of addImageConfig on a well-formed non-MDI Context and a
non-negative numeric image id: every held entry is removed (unbind hooks in
order), a single fresh config is stored and selected, its bind hook runs
last, no selection event is published. -/
theorem addImageConfig_nonMDI_eq (ctx : Context) (q : ℚ)
    (hq : ¬ q < 0) (hm : ctx.useMDI = false) (hwf : ctx.wfB = true) :
    ctx.addImageConfig (JsVal.num q) =
      (some { id := ctx.next_id, image_id := q },
       { ctx with
          image_configs :=
            [(ctx.next_id, { id := ctx.next_id, image_id := q })],
          selected_config := some ctx.next_id,
          next_id := ctx.next_id + 1 },
       ctx.image_configs.map (fun p => LcEvent.unbindHook p.1)
         ++ [LcEvent.bindHook ctx.next_id]) := by
  have hloop := removeAllLoop_self ctx.image_configs ctx rfl (wf_entries hwf)
  have hq2 : ¬ ((ctx.next_id : ℚ) < 0) := not_lt.mpr (Nat.cast_nonneg _)
  simp only [Context.addImageConfig, if_neg hq, hm, Bool.false_eq_true,
    if_false, hloop]
  simp only [Context.selectConfig, if_neg hq2, findConfigByNum, if_pos rfl]
  simp [mapSet]

/-! ## Claim theorems -/

/-- C1: evaluating removeImageConfig at the failing input: in the Context
constructed on image id 5 (one config, id 0, selected), removing the
selected config id 0 empties image_configs but leaves selected_config at
some 0 instead of clearing it — the deselect branch of the source compares
the object returned by getSelectedImageConfig with a numeric id under
strict equality, which never holds, so the selection dangles. -/
theorem removeSelected_keeps_selected_config :
    ctx5.selected_config = some 0 ∧
    (ctx5.removeImageConfig (ConfigOrId.byId 0)).1.image_configs = [] ∧
    (ctx5.removeImageConfig (ConfigOrId.byId 0)).1.selected_config = some 0 := by
  refine ⟨rfl, rfl, rfl⟩

/-- C2: the selected_config invariant is violated by removeImageConfig: the
constructed Context satisfies it, and removing the selected entry leaves a
selected_config that is no longer a key of image_configs. -/
theorem removeSelected_breaks_selected_invariant :
    ctx5.selInvB = true ∧
    (ctx5.removeImageConfig (ConfigOrId.byId 0)).1.selInvB = false := by
  refine ⟨rfl, rfl⟩

/-- C3: the constructor's event-bus guard is dead code: for every argument
(null, numbers, plain objects, anything) construction never throws the
initialization error, because the guard tests the string produced by typeof
with instanceof and a string is never an instance; in particular
construction with a null event bus and a valid image id succeeds. -/
theorem construct_never_throws_init_error :
    (∀ (eventbus initial : JsVal) (sp : Option String) (ea : Nat → Bool),
      isInitError (Context.construct eventbus initial sp ea) = false) ∧
    isOkB (Context.construct JsVal.null (JsVal.num 5) none (fun _ => false))
      = true := by
  constructor
  · intro eventbus initial sp ea
    have hguard : jsInstanceof (JsVal.str (jsTypeof eventbus)) ea = false := rfl
    simp only [Context.construct, hguard, Bool.false_eq_true, if_false]
    split <;> rfl
  · rfl

/-- C4: constructing with a valid event bus (an object the EventAggregator
oracle accepts) but a null initial image id does not complete: the source
reads the id property of the null that addImageConfig returns, a
TypeError. -/
theorem construct_without_initial_id_type_errors :
    Context.construct (JsVal.obj 0) JsVal.null none (fun _ => true)
      = Except.error CtorError.typeError := rfl

/-- C7: the server-URL normalization of the constructor on the four claimed
inputs, and the server field of a Context actually constructed with the
localhost parameter. -/
theorem server_normalization_cases :
    normalizeServer (some "localhost:4064") = "http://localhost:4064" ∧
    normalizeServer (some "http://localhost:4064") = "http://localhost:4064" ∧
    normalizeServer (some "example.org") = "example.org" ∧
    normalizeServer (some "") = "" ∧
    normalizeServer none = "" ∧
    (match Context.construct JsVal.null (JsVal.num 1) (some "localhost:4064")
        (fun _ => false) with
     | Except.ok p => p.1.server
     | Except.error _ => "construction failed") = "http://localhost:4064" := by
  refine ⟨rfl, rfl, rfl, rfl, rfl, rfl⟩

/-- C9 counterexample: the non-integer numeric key code 7/2 passes the
typeof check of addKeyListener, so a handler is registered for it — the
claimed no-op on non-integer codes does not hold. -/
theorem addKeyListener_registers_noninteger_code :
    nonIntCode = 7 / 2 ∧
    nonIntCode.den = 2 ∧
    mapGet ((emptyCtx.addKeyListener (JsVal.num nonIntCode)
        (JsVal.fn 1)).key_listeners) nonIntCode = some 1 := by
  refine ⟨?_, rfl, by decide⟩
  rw [nonIntCode, Rat.mk'_eq_divInt]
  norm_num [Rat.divInt_eq_div]

/-- C9 (amended): addKeyListener is a silent no-op exactly when the key is
not a number or the action is not a function; any numeric key code —
integer or not — paired with a function handler is registered. -/
theorem addKeyListener_guard_behavior (ctx : Context) :
    (∀ key action : JsVal, isNumVal key = false ∨ isFnVal action = false →
      ctx.addKeyListener key action = ctx) ∧
    (∀ (q : ℚ) (f : Nat),
      mapGet ((ctx.addKeyListener (JsVal.num q) (JsVal.fn f)).key_listeners) q
        = some f) := by
  constructor
  · intro key action h
    cases key <;> cases action <;>
      simp [isNumVal, isFnVal, Context.addKeyListener] at h ⊢
  · intro q f
    simp [Context.addKeyListener, mapGet_set_self]

/-- C6 counterexample: removeImageConfig called with an ImageConfig
reference that resolves to no entry of the map still invokes the unbind
lifecycle hook of the passed reference (the Context state is unchanged),
contradicting the claim that no lifecycle hook is invoked. -/
theorem remove_foreign_ref_fires_unbind :
    (ctx5.removeImageConfig (ConfigOrId.ref foreignConf)).2.isEmpty = false ∧
    (ctx5.removeImageConfig (ConfigOrId.ref foreignConf)).2
      = [LcEvent.unbindHook 99] ∧
    (ctx5.removeImageConfig (ConfigOrId.ref foreignConf)).1 = ctx5 := by
  refine ⟨rfl, rfl, rfl⟩

/-- C6 (amended): for every numeric id with no matching entry,
getImageConfig, selectConfig and removeImageConfig return none/undefined
and leave the whole Context unchanged with no lifecycle hook; for an
ImageConfig reference with no matching entry, removeImageConfig leaves
image_configs, selected_config and key_listeners unchanged and returns
undefined, but still invokes the unbind hook of the passed reference. -/
theorem missing_config_ops_are_noops (ctx : Context) (q : ℚ) (c : ImageConfig)
    (hq : findConfigByNum ctx.image_configs q = none)
    (hc : c.id ∉ ctx.image_configs.map Prod.fst) :
    ctx.getImageConfig (JsVal.num q) = none ∧
    ctx.selectConfig (JsVal.num q) = (ctx, []) ∧
    ctx.removeImageConfig (ConfigOrId.byId q) = (ctx, []) ∧
    ctx.removeImageConfig (ConfigOrId.ref c)
      = (ctx, [LcEvent.unbindHook c.id]) := by
  refine ⟨?_, ?_, removeImageConfig_byId_missing ctx q hq, ?_⟩
  · by_cases h0 : q < 0 <;> simp [Context.getImageConfig, h0, hq]
  · by_cases h0 : q < 0 <;> simp [Context.selectConfig, h0, hq]
  · rw [removeImageConfig_ref, removeResolved_eq, mapDelete_of_not_mem hc]

/-- C6 witness: the amended statement at the constructed Context (keys are
exactly the config id 0), the absent id 3 and a foreign reference. -/
theorem missing_config_ops_are_noops_witness :
    ctx5.getImageConfig (JsVal.num 3) = none ∧
    ctx5.selectConfig (JsVal.num 3) = (ctx5, []) ∧
    ctx5.removeImageConfig (ConfigOrId.byId 3) = (ctx5, []) ∧
    ctx5.removeImageConfig (ConfigOrId.ref foreignConf)
      = (ctx5, [LcEvent.unbindHook foreignConf.id]) :=
  missing_config_ops_are_noops ctx5 3 foreignConf (by decide) (by decide)

/-- C5: on any well-formed non-MDI Context, each addImageConfig call with a
non-negative integer image id leaves image_configs with exactly one entry —
the config created by that call — after invoking the unbind hook of every
previously held config before the new one's bind hook; well-formedness and
the non-MDI flag persist, so the property holds after every call of a
sequence. -/
theorem addImageConfig_nonMDI_single_entry (ctx : Context) (n : Nat)
    (hwf : ctx.wfB = true) (hm : ctx.useMDI = false) :
    ∃ c : ImageConfig,
      (ctx.addImageConfig (JsVal.num (n : ℚ))).1 = some c ∧
      (ctx.addImageConfig (JsVal.num (n : ℚ))).2.1.image_configs
        = [(c.id, c)] ∧
      (ctx.addImageConfig (JsVal.num (n : ℚ))).2.1.wfB = true ∧
      (ctx.addImageConfig (JsVal.num (n : ℚ))).2.1.useMDI = false ∧
      (ctx.addImageConfig (JsVal.num (n : ℚ))).2.2 =
        ctx.image_configs.map (fun p => LcEvent.unbindHook p.1)
          ++ [LcEvent.bindHook c.id] := by
  have hq : ¬ ((n : ℚ) < 0) := not_lt.mpr (Nat.cast_nonneg _)
  refine ⟨{ id := ctx.next_id, image_id := (n : ℚ) }, ?_, ?_, ?_, ?_, ?_⟩ <;>
    rw [addImageConfig_nonMDI_eq ctx (n : ℚ) hq hm hwf] <;>
    simp [Context.wfB, hm]

/-- C5 witness: one addImageConfig call with image id 7 on the constructed
single-entry Context. -/
theorem addImageConfig_nonMDI_single_entry_witness :
    ∃ c : ImageConfig,
      (ctx5.addImageConfig (JsVal.num ((7 : Nat) : ℚ))).1 = some c ∧
      (ctx5.addImageConfig (JsVal.num ((7 : Nat) : ℚ))).2.1.image_configs
        = [(c.id, c)] ∧
      (ctx5.addImageConfig (JsVal.num ((7 : Nat) : ℚ))).2.1.wfB = true ∧
      (ctx5.addImageConfig (JsVal.num ((7 : Nat) : ℚ))).2.1.useMDI = false ∧
      (ctx5.addImageConfig (JsVal.num ((7 : Nat) : ℚ))).2.2 =
        ctx5.image_configs.map (fun p => LcEvent.unbindHook p.1)
          ++ [LcEvent.bindHook c.id] :=
  addImageConfig_nonMDI_single_entry ctx5 7 (by decide) rfl

/-- C8: registering twice on the same key code leaves exactly the latest
handler: the map holds the latest handler under that code, key uniqueness
is preserved by each registration, and a ctrl keydown on a non-input target
with that key code dispatches to the latest handler only. -/
theorem addKeyListener_replaces_and_dispatches_latest
    (ctx : Context) (k : ℚ) (f g : Nat) (e : KeyEvent)
    (hnd : (ctx.key_listeners.map Prod.fst).Nodup)
    (hc : e.ctrlKey = true)
    (ht : jsToUpperCase e.targetTag ≠ "INPUT")
    (hk : e.keyCode = k) :
    mapGet (((ctx.addKeyListener (JsVal.num k) (JsVal.fn f)).addKeyListener
        (JsVal.num k) (JsVal.fn g)).key_listeners) k = some g ∧
    ((ctx.addKeyListener (JsVal.num k) (JsVal.fn f)).addKeyListener
        (JsVal.num k) (JsVal.fn g)).keydown e = DispatchResult.handled g ∧
    (((ctx.addKeyListener (JsVal.num k) (JsVal.fn f)).key_listeners).map
        Prod.fst).Nodup ∧
    ((((ctx.addKeyListener (JsVal.num k) (JsVal.fn f)).addKeyListener
        (JsVal.num k) (JsVal.fn g)).key_listeners).map Prod.fst).Nodup := by
  have h1 : mapGet (mapSet (mapSet ctx.key_listeners k f) k g) k = some g :=
    mapGet_set_self _ _ _
  refine ⟨?_, ?_, ?_, ?_⟩
  · simpa [Context.addKeyListener] using h1
  · simp only [Context.keydown, hc, hk, Context.addKeyListener]
    rw [if_neg]
    · rw [h1]
    · simp [ht]
  · exact nodup_keys_mapSet _ _ hnd
  · exact nodup_keys_mapSet _ _ (nodup_keys_mapSet _ _ hnd)

/-- C8 witness: key code 65 with handlers 1 then 2 on the fresh Context and
a ctrl keydown on a DIV target. -/
theorem addKeyListener_replaces_and_dispatches_latest_witness :
    mapGet (((emptyCtx.addKeyListener (JsVal.num 65)
        (JsVal.fn 1)).addKeyListener
        (JsVal.num 65) (JsVal.fn 2)).key_listeners) 65 = some 2 ∧
    ((emptyCtx.addKeyListener (JsVal.num 65) (JsVal.fn 1)).addKeyListener
        (JsVal.num 65) (JsVal.fn 2)).keydown
        { ctrlKey := true, targetTag := "div", keyCode := 65 }
      = DispatchResult.handled 2 ∧
    (((emptyCtx.addKeyListener (JsVal.num 65)
        (JsVal.fn 1)).key_listeners).map Prod.fst).Nodup ∧
    ((((emptyCtx.addKeyListener (JsVal.num 65) (JsVal.fn 1)).addKeyListener
        (JsVal.num 65) (JsVal.fn 2)).key_listeners).map Prod.fst).Nodup :=
  addKeyListener_replaces_and_dispatches_latest emptyCtx 65 1 2
    { ctrlKey := true, targetTag := "div", keyCode := 65 }
    (by decide) rfl (by decide) rfl

/-- C10: on any Context with duplicate-free listener keys, Regions.attached
registers handlers for exactly the key codes 68, 85, 83, 89, 90 (all other
codes are untouched), and a following Regions.detached removes the entries
of all five codes — handlers present before attached are deleted, not
restored — while codes outside the five keep their original handlers. -/
theorem regions_attach_detach_key_lifecycle (ctx : Context) (f : ℚ → Nat)
    (hnd : (ctx.key_listeners.map Prod.fst).Nodup) :
    (∀ k, k ∈ Regions.keyCodes →
      mapGet (Regions.attached ctx f).key_listeners k = some (f k)) ∧
    (∀ k, k ∉ Regions.keyCodes →
      mapGet (Regions.attached ctx f).key_listeners k
        = mapGet ctx.key_listeners k) ∧
    (∀ k, k ∈ Regions.keyCodes →
      mapGet (Regions.detached (Regions.attached ctx f)).key_listeners k
        = none) ∧
    (∀ k, k ∉ Regions.keyCodes →
      mapGet (Regions.detached (Regions.attached ctx f)).key_listeners k
        = mapGet ctx.key_listeners k) := by
  have hA : (Regions.attached ctx f).key_listeners
      = mapSet (mapSet (mapSet (mapSet (mapSet ctx.key_listeners
          68 (f 68)) 85 (f 85)) 83 (f 83)) 89 (f 89)) 90 (f 90) := rfl
  have hD : (Regions.detached (Regions.attached ctx f)).key_listeners
      = mapDelete (mapDelete (mapDelete (mapDelete (mapDelete
          (Regions.attached ctx f).key_listeners 68) 85) 83) 89) 90 := rfl
  have hnA : ((Regions.attached ctx f).key_listeners.map Prod.fst).Nodup := by
    rw [hA]
    exact nodup_keys_mapSet _ _ (nodup_keys_mapSet _ _ (nodup_keys_mapSet _ _
      (nodup_keys_mapSet _ _ (nodup_keys_mapSet _ _ hnd))))
  refine ⟨?_, ?_, ?_, ?_⟩
  · intro k hk
    rw [hA]
    simp only [Regions.keyCodes, List.mem_cons, List.not_mem_nil,
      or_false] at hk
    rcases hk with rfl | rfl | rfl | rfl | rfl
    · rw [mapGet_set_other _ _ _ _ (by norm_num),
        mapGet_set_other _ _ _ _ (by norm_num),
        mapGet_set_other _ _ _ _ (by norm_num),
        mapGet_set_other _ _ _ _ (by norm_num), mapGet_set_self]
    · rw [mapGet_set_other _ _ _ _ (by norm_num),
        mapGet_set_other _ _ _ _ (by norm_num),
        mapGet_set_other _ _ _ _ (by norm_num), mapGet_set_self]
    · rw [mapGet_set_other _ _ _ _ (by norm_num),
        mapGet_set_other _ _ _ _ (by norm_num), mapGet_set_self]
    · rw [mapGet_set_other _ _ _ _ (by norm_num), mapGet_set_self]
    · rw [mapGet_set_self]
  · intro k hk
    simp only [Regions.keyCodes, List.mem_cons, List.not_mem_nil, or_false,
      not_or] at hk
    obtain ⟨h68, h85, h83, h89, h90⟩ := hk
    rw [hA, mapGet_set_other _ _ _ _ h90, mapGet_set_other _ _ _ _ h89,
      mapGet_set_other _ _ _ _ h83, mapGet_set_other _ _ _ _ h85,
      mapGet_set_other _ _ _ _ h68]
  · intro k hk
    rw [hD]
    simp only [Regions.keyCodes, List.mem_cons, List.not_mem_nil,
      or_false] at hk
    rcases hk with rfl | rfl | rfl | rfl | rfl
    · rw [mapGet_delete_other _ _ _ (by norm_num),
        mapGet_delete_other _ _ _ (by norm_num),
        mapGet_delete_other _ _ _ (by norm_num),
        mapGet_delete_other _ _ _ (by norm_num)]
      exact mapGet_delete_self _ hnA
    · rw [mapGet_delete_other _ _ _ (by norm_num),
        mapGet_delete_other _ _ _ (by norm_num),
        mapGet_delete_other _ _ _ (by norm_num)]
      exact mapGet_delete_self _ (nodup_keys_mapDelete _ hnA)
    · rw [mapGet_delete_other _ _ _ (by norm_num),
        mapGet_delete_other _ _ _ (by norm_num)]
      exact mapGet_delete_self _
        (nodup_keys_mapDelete _ (nodup_keys_mapDelete _ hnA))
    · rw [mapGet_delete_other _ _ _ (by norm_num)]
      exact mapGet_delete_self _ (nodup_keys_mapDelete _
        (nodup_keys_mapDelete _ (nodup_keys_mapDelete _ hnA)))
    · exact mapGet_delete_self _ (nodup_keys_mapDelete _
        (nodup_keys_mapDelete _ (nodup_keys_mapDelete _
          (nodup_keys_mapDelete _ hnA))))
  · intro k hk
    simp only [Regions.keyCodes, List.mem_cons, List.not_mem_nil, or_false,
      not_or] at hk
    obtain ⟨h68, h85, h83, h89, h90⟩ := hk
    rw [hD, mapGet_delete_other _ _ _ h90, mapGet_delete_other _ _ _ h89,
      mapGet_delete_other _ _ _ h83, mapGet_delete_other _ _ _ h85,
      mapGet_delete_other _ _ _ h68, hA,
      mapGet_set_other _ _ _ _ h90, mapGet_set_other _ _ _ _ h89,
      mapGet_set_other _ _ _ _ h83, mapGet_set_other _ _ _ _ h85,
      mapGet_set_other _ _ _ _ h68]

/-- C10 witness: the attach/detach lifecycle on the fresh Context with a
constant handler assignment. -/
theorem regions_attach_detach_key_lifecycle_witness :
    (∀ k, k ∈ Regions.keyCodes →
      mapGet (Regions.attached emptyCtx (fun _ => 0)).key_listeners k
        = some 0) ∧
    (∀ k, k ∉ Regions.keyCodes →
      mapGet (Regions.attached emptyCtx (fun _ => 0)).key_listeners k
        = mapGet emptyCtx.key_listeners k) ∧
    (∀ k, k ∈ Regions.keyCodes →
      mapGet (Regions.detached
        (Regions.attached emptyCtx (fun _ => 0))).key_listeners k = none) ∧
    (∀ k, k ∉ Regions.keyCodes →
      mapGet (Regions.detached
        (Regions.attached emptyCtx (fun _ => 0))).key_listeners k
        = mapGet emptyCtx.key_listeners k) :=
  regions_attach_detach_key_lifecycle emptyCtx (fun _ => 0) (by decide)

end Iviewer
